import Mathlib

/-!
Shallow embedding of the sync-manager agent core (Go sources under
`agent/internal`): the upload pipeline (queueing, retry loop, throttled
reader), the exclude matcher, storage-key construction, the folder
registry operations of the sync orchestrator, and the two-way download
reconciliation. Each definition mirrors one Go function; machine time is
modelled as natural-number milliseconds and `int64` counters as `Int`.
-/

namespace SyncSpec

/-- Mirror of `uploader.UploadTask` (uploader.go lines 21-29). `lastAttempt`
is a timestamp in abstract ticks. -/
structure UploadTask where
  filePath : String
  key : String
  folderID : String
  priority : Int
  metadata : List (String × String)
  retryCount : Nat
  lastAttempt : Nat
deriving Repr, DecidableEq

/-- Capacity of the bounded task queue: `make(chan UploadTask, 1000)` in
`NewUploader` (uploader.go line 74). -/
def queueCapacity : Nat := 1000

/-- Mirror of `Uploader.QueueUpload` (uploader.go lines 120-131): the
`select` with a `default` branch succeeds exactly when the buffered channel
has free space, otherwise it returns the queue-full error at once and the
queue is untouched.  The channel buffer is modelled as the list of queued
tasks; the result pairs the returned error (`none` for success) with the
queue after the call. -/
def QueueUpload (queue : List UploadTask) (task : UploadTask) :
    Option String × List UploadTask :=
  if queue.length < queueCapacity then (none, queue ++ [task])
  else (some "upload queue is full", queue)

/-- One iteration of the worker loop for a given task (uploader.go lines
178-219): the retry count the attempt ran at, whether `processUpload`
succeeded, and — when the failed task is re-queued — the backoff in
seconds (`none` when the task is not resubmitted). Every record also
corresponds to exactly one `UploadResult` sent on `resultChan` at lines
186-191, since the result of every attempt is published before the retry
decision is made. -/
structure AttemptRecord where
  retryCount : Nat
  success : Bool
  backoffSeconds : Option Nat
deriving Repr, DecidableEq

/-- Mirror of the per-task part of `Uploader.worker` (uploader.go lines
178-219), following one task through the queue until it is no longer
resubmitted.  `succeeds rc` abstracts whether `processUpload` succeeds on
the attempt that runs with `RetryCount = rc`.  On failure with
`RetryCount < 3` the worker waits `2^RetryCount` seconds, increments the
count and re-queues the task (lines 194-217); otherwise the task is
dropped after its result was published. -/
def workerAttempts (succeeds : Nat → Bool) (rc : Nat) : List AttemptRecord :=
  if succeeds rc then [⟨rc, true, none⟩]
  else if h : rc < 3 then ⟨rc, false, some (2 ^ rc)⟩ :: workerAttempts succeeds (rc + 1)
  else [⟨rc, false, none⟩]
termination_by 3 - rc
decreasing_by omega

/-- Number of `UploadResult` values published on `resultChan` for one task:
one per attempt (uploader.go lines 183-191 publish unconditionally). -/
def publishedCount (succeeds : Nat → Bool) (rc : Nat) : Nat :=
  (workerAttempts succeeds rc).length

/-- Mirror of the mutable fields of `throttledReader` (uploader.go lines
360-366) that the rate computation reads and writes.  The Go
`lastTimestamp` field is represented indirectly: each call to the read
step receives the elapsed time since `lastTimestamp` as an input, and a
window reset corresponds to the Go code storing a fresh timestamp. -/
structure ThrottledReader where
  bytesPerSec : Int
  bytesThisSec : Int
deriving Repr, DecidableEq

/-- Milliseconds in the fixed window used by the limiter (`time.Second`). -/
def oneSecondMs : Int := 1000

/-- Outcome of one call to `throttledReader.Read`: bytes handed to the
caller, whether the per-window counter was reset during the call, and the
state of the reader afterwards. -/
structure ReadStep where
  n : Nat
  resetWindow : Bool
  state : ThrottledReader
deriving Repr, DecidableEq

/-- Mirror of `throttledReader.Read` (uploader.go lines 376-419).
`elapsedMs` is `time.Now().Sub(t.lastTimestamp)` in milliseconds;
`bufLen` is `len(p)`; `avail` is how many bytes the underlying reader
yields when asked for `toRead` bytes (the Go reader may return fewer than
requested, never more).  Lines 384-388 reset the counter when a full
window has passed; lines 391-398 sleep out the rest of the window and
reset when the quota is already consumed; lines 400-410 cap the read at
the remaining quota; line 416 adds the delivered bytes to the counter. -/
def throttledRead (t : ThrottledReader) (elapsedMs : Nat) (bufLen : Nat)
    (avail : Nat) : ReadStep :=
  let b1 : Int := if (elapsedMs : Int) ≥ oneSecondMs then 0 else t.bytesThisSec
  let r1 : Bool := decide ((elapsedMs : Int) ≥ oneSecondMs)
  let quotaHit : Bool := decide (b1 ≥ t.bytesPerSec)
  let sleepPos : Bool := decide (oneSecondMs - (elapsedMs : Int) > 0)
  let b2 : Int := if quotaHit ∧ sleepPos then 0 else b1
  let r2 : Bool := r1 || (quotaHit && sleepPos)
  let maxBytes0 : Int := t.bytesPerSec - b2
  let maxBytes : Int := if maxBytes0 ≤ 0 then t.bytesPerSec else maxBytes0
  let toRead : Nat := if (bufLen : Int) > maxBytes then maxBytes.toNat else bufLen
  let n : Nat := min toRead avail
  ⟨n, r2, ⟨t.bytesPerSec, b2 + (n : Int)⟩⟩

/-- Run a sequence of `Read` calls against a throttled reader, collecting
every step.  Each input triple is `(elapsedMs, bufLen, avail)`. -/
def runTrace (t : ThrottledReader) : List (Nat × Nat × Nat) → List ReadStep
  | [] => []
  | (e, l, a) :: rest =>
      let s := throttledRead t e l a
      s :: runTrace s.state rest

/-- Running totals of bytes delivered in the current one-second window
along a trace of read steps: the accumulator restarts at 0 whenever the
step reset the window. -/
def windowSums (acc : Int) : List ReadStep → List Int
  | [] => []
  | s :: rest =>
      let acc' := (if s.resetWindow then 0 else acc) + (s.n : Int)
      acc' :: windowSums acc' rest

/-- Mirror of the loop body of `watcher.ShouldExclude` (watcher.go lines
264-273): try each pattern with `filepath.Match`; a pattern whose
compilation fails is skipped with `continue`; a successful match returns
true.  `matchFn` abstracts the standard-library `filepath.Match`, which is
external to the repository: it returns `Except.error` exactly when the Go
call reports a bad pattern. -/
def shouldExcludeGo (matchFn : String → String → Except String Bool)
    (path : String) : List String → Bool
  | [] => false
  | pat :: rest =>
      match matchFn pat path with
      | Except.error _ => shouldExcludeGo matchFn path rest
      | Except.ok matched => matched || shouldExcludeGo matchFn path rest

/-- Mirror of `watcher.ShouldExclude` (watcher.go lines 259-276), with the
early return for an empty pattern list at lines 260-262. -/
def ShouldExclude (matchFn : String → String → Except String Bool)
    (path : String) (patterns : List String) : Bool :=
  if patterns.length = 0 then false
  else shouldExcludeGo matchFn path patterns

/-- Model of `filepath.ToSlash` (standard library): replace the host path
separator `sep` by a forward slash.  On the separator `'/'` it is the
identity. -/
def toSlash (sep : Char) (s : String) : String :=
  String.mk (s.data.map (fun c => if c = sep then '/' else c))

/-- Character-level prefix test on strings (Go `strings.HasPrefix`). -/
def startsWithStr (p s : String) : Bool :=
  p.data.isPrefixOf s.data

/-- Drop the first `n` characters of a string. -/
def dropStr (s : String) (n : Nat) : String :=
  String.mk (s.data.drop n)

/-- Model of `filepath.Rel(basePath, targPath)` (standard library) for the
case the embedding needs: the target lies strictly under the base, so the
result is the target with the base directory and one separator stripped.
Other shapes of input return `none`, standing for the error/`..` results
the callers treat as failures. -/
def relPathGo (sep : Char) (basePath targPath : String) : Option String :=
  if startsWithStr (basePath.push sep) targPath ∧
      basePath.length + 1 < targPath.length then
    some (dropStr targPath (basePath.length + 1))
  else none

/-- Mirror of the storage-key construction in `Uploader.QueueFile`
(uploader.go lines 146-153): `relPath := filepath.Rel(folderPath,
filePath)` followed by `storageKey := filepath.ToSlash(relPath)`.  No
other component is joined onto the key.  `none` corresponds to the
early-return error when `filepath.Rel` fails. -/
def queueFileKey (sep : Char) (folderPath filePath : String) : Option String :=
  (relPathGo sep folderPath filePath).map (toSlash sep)

/-- Model of `strings.TrimPrefix` (standard library): drop `pre` from the
front of `s` when it is a prefix, otherwise return `s` unchanged. -/
def trimPrefixGo (s pre : String) : String :=
  if startsWithStr pre s then dropStr s pre.length else s

/-- Mirror of `config.SyncFolder` (config.go lines 12-17).  Note the
persisted configuration carries no two-way-sync field at all. -/
structure SyncFolderCfg where
  localPath : String
  remotePath : String
  excludePatterns : List String
  enabled : Bool
deriving Repr, DecidableEq

/-- Mirror of `sync.FolderSync` (manager.go lines 77-84).  `lastSync` is an
abstract timestamp, `0` standing for the zero `time.Time`. -/
structure FolderSync where
  id : String
  path : String
  excludePatterns : List String
  lastSync : Nat
  twoWaySync : Bool
  enabled : Bool
deriving Repr, DecidableEq

/-- Folder-table initialisation in `NewSyncManager` (manager.go lines
106-116): one `FolderSync` per configured folder, with `LastSync` zero,
`TwoWaySync` hard-coded to `false` and `Enabled` copied from the
configuration. -/
def foldersFromConfig (cfgFolders : List (String × SyncFolderCfg)) :
    List (String × FolderSync) :=
  cfgFolders.map (fun p =>
    (p.1, ⟨p.1, p.2.localPath, p.2.excludePatterns, 0, false, p.2.enabled⟩))

/-- Association-list lookup standing for a Go map read. -/
def lookupByID (table : List (String × FolderSync)) (id : String) :
    Option FolderSync :=
  (table.find? (fun p => p.1 = id)).map Prod.snd

/-- The per-folder update performed by `SyncManager.ReloadConfiguration`
for a folder id present both in the registry and in the reloaded
configuration (manager.go lines 748-769): the entry is rewritten only when
the path or the enabled flag changed, and `TwoWaySync` is left untouched
in either case. -/
def reloadUpdateExisting (ex : FolderSync) (fc : SyncFolderCfg) : FolderSync :=
  if ex.path ≠ fc.localPath ∨ ex.enabled ≠ fc.enabled then
    { ex with path := fc.localPath, excludePatterns := fc.excludePatterns,
              enabled := fc.enabled }
  else ex

/-- The folder entry `SyncManager.ReloadConfiguration` builds for a folder
id that is new in the reloaded configuration (manager.go lines 773-782):
`TwoWaySync` is hard-coded to `false`. -/
def reloadNewFolder (id : String) (fc : SyncFolderCfg) : FolderSync :=
  ⟨id, fc.localPath, fc.excludePatterns, 0, false, fc.enabled⟩

/-- Net effect of `SyncManager.ReloadConfiguration` on the folder table
(manager.go lines 737-799): every configured id keeps its (possibly
updated) existing entry or receives a fresh entry, and registry entries
absent from the new configuration are deleted (lines 793-799).  Watcher
side effects are not part of the table. -/
def reloadFolders (old : List (String × FolderSync))
    (cfg : List (String × SyncFolderCfg)) : List (String × FolderSync) :=
  cfg.map (fun p =>
    match lookupByID old p.1 with
    | some ex => (p.1, reloadUpdateExisting ex p.2)
    | none => (p.1, reloadNewFolder p.1 p.2))

/-- The condition under which `SyncManager.syncFolder` invokes
`downloadFromRemote` after walking the tree (manager.go lines 283-287). -/
def syncFolderDownloads (folder : FolderSync) : Bool :=
  folder.twoWaySync

/-- Go-map upsert on the registry, standing for
`sm.folders[folder.ID] = folder` (manager.go line 522). -/
def setFolderEntry (table : List (String × FolderSync)) (id : String)
    (f : FolderSync) : List (String × FolderSync) :=
  if (table.find? (fun p => p.1 = id)).isSome then
    table.map (fun p => if p.1 = id then (id, f) else p)
  else table ++ [(id, f)]

/-- Go-map upsert on the persisted configuration, standing for
`Config.SetSyncFolder` (config.go lines 142-147). -/
def setFolderCfg (cfg : List (String × SyncFolderCfg)) (id : String)
    (f : SyncFolderCfg) : List (String × SyncFolderCfg) :=
  if (cfg.find? (fun p => p.1 = id)).isSome then
    cfg.map (fun p => if p.1 = id then (id, f) else p)
  else cfg ++ [(id, f)]

/-- The mutable state `SyncManager.AddFolder` touches: the in-memory
folder registry `sm.folders` and the configuration's folder table
`sm.config.Folders`. -/
structure ManagerState where
  folders : List (String × FolderSync)
  configFolders : List (String × SyncFolderCfg)
deriving Repr, DecidableEq

/-- Mirror of `SyncManager.AddFolder` (manager.go lines 490-545).  The
environment is abstracted by: `stat`, the result of `os.Stat` on a path
(`none` for a stat error, `some isDir` otherwise); `watcherUp`, whether
`sm.watcher` is non-nil; `watchErr` and `saveErr`, the outcomes of
`watcher.AddFolder` and `config.SaveConfig` when they are reached; and
`newID`, the UUID generated when the folder arrives without an id.  The
result pairs the returned error (`none` for success) with the state after
the call — the Go method mutates `sm.folders` in place before the watch
and persistence steps, so a late error leaves the inserted entry behind. -/
def AddFolder (stat : String → Option Bool) (watcherUp : Bool)
    (watchErr : Option String) (saveErr : Option String) (newID : String)
    (st : ManagerState) (folder : FolderSync) : Option String × ManagerState :=
  if folder.path = "" then (some "folder path cannot be empty", st)
  else
    match stat folder.path with
    | none => (some "folder path error", st)
    | some isDir =>
      if !isDir then (some ("path is not a directory: " ++ folder.path), st)
      else
        let fid := if folder.id = "" then newID else folder.id
        let folder' := { folder with id := fid }
        if st.folders.any (fun p => p.2.path = folder.path) then
          (some ("folder already added with path: " ++ folder.path), st)
        else
          let st1 : ManagerState :=
            { st with folders := setFolderEntry st.folders fid folder' }
          if folder.enabled ∧ watcherUp ∧ watchErr.isSome then
            (some "failed to watch folder", st1)
          else
            let cfgEntry : SyncFolderCfg :=
              ⟨folder'.path, fid, folder'.excludePatterns, folder'.enabled⟩
            let st2 : ManagerState :=
              { st1 with configFolders := setFolderCfg st1.configFolders fid cfgEntry }
            match saveErr with
            | some _ => (some "failed to save config", st2)
            | none => (none, st2)

/-- Mirror of `storage.FileInfo` (storage.go lines 13-18), the listing
entry used by the download reconciliation; `lastModified` is an abstract
timestamp. -/
structure RemoteFileInfo where
  key : String
  size : Int
  lastModified : Nat
  etag : String
deriving Repr, DecidableEq

/-- A file on the local disk under the folder root, identified by its
folder-relative path. -/
structure LocalFile where
  relPath : String
  modTime : Nat
  content : String
deriving Repr, DecidableEq

/-- The local scan of `downloadFromRemote` (manager.go lines 303-323):
walk the folder, skip entries matched by the exclude patterns, and record
`relPath -> ModTime` for the rest. -/
def localFilesMap (matchFn : String → String → Except String Bool)
    (excl : List String) (fs : List LocalFile) : List (String × Nat) :=
  (fs.filter (fun f => !(ShouldExclude matchFn f.relPath excl))).map
    (fun f => (f.relPath, f.modTime))

/-- Go-map read `localFiles[remotePath]` (manager.go line 341). -/
def lookupModTime (m : List (String × Nat)) (k : String) : Option Nat :=
  (m.find? (fun p => p.1 = k)).map Prod.snd

/-- The relative path extracted from a remote key at manager.go line 340:
`strings.TrimPrefix(remoteFile.Key, folder.ID+"/")`. -/
def remoteRelPath (folderID : String) (rf : RemoteFileInfo) : String :=
  trimPrefixGo rf.key (folderID ++ "/")

/-- The download decision at manager.go line 344: download when the path
is absent from the local scan or the remote `LastModified` is strictly
after the recorded local modification time. -/
def shouldDownload (localMap : List (String × Nat)) (folderID : String)
    (rf : RemoteFileInfo) : Bool :=
  match lookupModTime localMap (remoteRelPath folderID rf) with
  | none => true
  | some mt => decide (mt < rf.lastModified)

/-- Effect on the local tree of one successful download (manager.go lines
356-381): the file at `p` is created or truncated, filled with the
downloaded content, and its modification time is set to the remote value
via `os.Chtimes`. -/
def writeLocal (fs : List LocalFile) (p : String) (c : String) (t : Nat) :
    List LocalFile :=
  ⟨p, t, c⟩ :: fs.filter (fun f => f.relPath ≠ p)

/-- One iteration of the download loop (manager.go lines 330-390): the
accumulator pairs the keys downloaded so far with the local tree; a
selected file is downloaded and its modification time set to the remote
value, an unselected file leaves everything untouched. -/
def downloadStep (localMap : List (String × Nat)) (folderID : String)
    (remoteContent : String → String) (acc : List String × List LocalFile)
    (rf : RemoteFileInfo) : List String × List LocalFile :=
  if shouldDownload localMap folderID rf then
    (acc.1 ++ [rf.key],
     writeLocal acc.2 (remoteRelPath folderID rf) (remoteContent rf.key)
       rf.lastModified)
  else acc

/-- Mirror of `SyncManager.downloadFromRemote` (manager.go lines 293-393)
under always-successful I/O: list the remote namespace (`remote` is the
result of `ListFiles(ctx, folder.ID)`), scan the local tree once into
`localMap`, then walk the remote entries in order, downloading the ones
`shouldDownload` selects.  `remoteContent` gives the body `DownloadFile`
writes for a key.  Returns the keys downloaded and the local tree after
the pass. -/
def downloadFromRemote (matchFn : String → String → Except String Bool)
    (folderID : String) (excl : List String) (fs0 : List LocalFile)
    (remote : List RemoteFileInfo) (remoteContent : String → String) :
    List String × List LocalFile :=
  remote.foldl
    (downloadStep (localFilesMap matchFn excl fs0) folderID remoteContent)
    ([], fs0)

/-- Lookup of a local file by folder-relative path. -/
def fileAt (fs : List LocalFile) (p : String) : Option LocalFile :=
  fs.find? (fun f => f.relPath = p)

/-- A sample upload task used to instantiate universally quantified
theorems at concrete values. -/
def task0 : UploadTask :=
  ⟨"/tmp/x/a.txt", "a.txt", "f1", 1, [], 0, 0⟩

/-- A concrete stand-in for `filepath.Match` on metacharacter-free
patterns: the single pattern "[" is the canonical malformed glob
(unclosed character class, `ErrBadPattern`), every other pattern matches
exactly itself. -/
def matchLiteral (pat path : String) : Except String Bool :=
  if pat = "[" then Except.error "syntax error in pattern"
  else Except.ok (pat = path)

end SyncSpec

namespace SyncSpec

/-- C3: `QueueUpload`'s select-with-default succeeds exactly on a
non-saturated queue.  With fewer than 1000 queued tasks the task is
appended and `nil` is returned; with a full queue the queue-full error is
returned at once and the queue is unchanged.  The caller is never
blocked: both branches return immediately. -/
theorem C3_queueUpload_never_blocks (q : List UploadTask) (t : UploadTask) :
    (q.length < queueCapacity → QueueUpload q t = (none, q ++ [t])) ∧
    (queueCapacity ≤ q.length →
      QueueUpload q t = (some "upload queue is full", q)) := by
  constructor
  · intro h
    simp [QueueUpload, h]
  · intro h
    simp [QueueUpload, Nat.not_lt.mpr h]

/-- C3 witness: an empty queue accepts the task; a queue of 1000 tasks
rejects it with the queue-full error and keeps its contents. -/
theorem C3_queueUpload_never_blocks_witness :
    QueueUpload [] task0 = (none, [task0]) ∧
    QueueUpload (List.replicate 1000 task0) task0 =
      (some "upload queue is full", List.replicate 1000 task0) := by
  constructor
  · exact (C3_queueUpload_never_blocks [] task0).1 (by simp [queueCapacity])
  · exact (C3_queueUpload_never_blocks (List.replicate 1000 task0) task0).2
      (by rw [List.length_replicate]; norm_num [queueCapacity])

/-- C1 counterexample: a task entering with `retryCount = 0` whose upload
fails on every attempt is attempted FOUR times (at retry counts 0, 1, 2
and 3) — after failing upload three times it is resubmitted once more,
because the worker re-queues any failed attempt with `RetryCount < 3`
after incrementing the count.  This refutes the claim that such a task is
never attempted a fourth time. -/
theorem C1_counterexample_fourth_attempt :
    workerAttempts (fun _ => false) 0 =
      [⟨0, false, some 1⟩, ⟨1, false, some 2⟩, ⟨2, false, some 4⟩,
       ⟨3, false, none⟩] ∧
    (workerAttempts (fun _ => false) 0).length = 4 := by
  constructor <;> simp [workerAttempts]

/-- C1 amended: a task entering the pipeline with `retryCount = 0` whose
upload fails on every attempt is attempted exactly four times — the
initial attempt plus three retries — and never a fifth; each failed
attempt with `retryCount < 3` re-enters the queue after `2^retryCount`
seconds with the count incremented, and the attempt that fails with
`retryCount = 3` is terminal: no backoff is scheduled and the task is not
resubmitted. -/
theorem C1_amended_retry_schedule (succeeds : Nat → Bool)
    (hfail : ∀ i, succeeds i = false) :
    workerAttempts succeeds 0 =
      [⟨0, false, some 1⟩, ⟨1, false, some 2⟩, ⟨2, false, some 4⟩,
       ⟨3, false, none⟩] := by
  simp [workerAttempts, hfail]

/-- C1 amended witness: the always-failing upload instantiated
concretely. -/
theorem C1_amended_retry_schedule_witness :
    workerAttempts (fun _ => false) 0 =
      [⟨0, false, some 1⟩, ⟨1, false, some 2⟩, ⟨2, false, some 4⟩,
       ⟨3, false, none⟩] :=
  C1_amended_retry_schedule (fun _ => false) (fun _ => rfl)

/-- Helper: the attempt trace of one task decomposes as a block of failed,
re-queued attempts followed by exactly one terminal attempt (fuel-indexed
induction on the retry budget). -/
theorem workerAttempts_decomp (succeeds : Nat → Bool) :
    ∀ fuel rc, 3 - rc ≤ fuel → rc ≤ 3 →
    ∃ front last, workerAttempts succeeds rc = front ++ [last] ∧
      (∀ r ∈ front, r.success = false ∧ r.backoffSeconds.isSome) ∧
      last.backoffSeconds = none ∧
      (last.success = true ∨ (last.success = false ∧ last.retryCount = 3)) := by
  intro fuel
  induction fuel with
  | zero =>
      intro rc h hrc
      have h3 : rc = 3 := by omega
      subst h3
      by_cases hs : succeeds 3
      · exact ⟨[], ⟨3, true, none⟩, by simp [workerAttempts, hs], by simp,
          rfl, Or.inl rfl⟩
      · exact ⟨[], ⟨3, false, none⟩, by simp [workerAttempts, hs], by simp,
          rfl, Or.inr ⟨rfl, rfl⟩⟩
  | succ n ih =>
      intro rc h hrc
      by_cases hs : succeeds rc
      · exact ⟨[], ⟨rc, true, none⟩, by simp [workerAttempts, hs], by simp,
          rfl, Or.inl rfl⟩
      · by_cases hlt : rc < 3
        · obtain ⟨front, last, heq, hfront, hterm, hkind⟩ :=
            ih (rc + 1) (by omega) (by omega)
          refine ⟨⟨rc, false, some (2 ^ rc)⟩ :: front, last, ?_, ?_, hterm, hkind⟩
          · rw [show workerAttempts succeeds rc =
                ⟨rc, false, some (2 ^ rc)⟩ :: workerAttempts succeeds (rc + 1) from by
              rw [workerAttempts.eq_def]
              simp [hs, hlt], heq]
            rfl
          · intro r hr
            rcases List.mem_cons.mp hr with h1 | h1
            · subst h1
              exact ⟨rfl, rfl⟩
            · exact hfront r h1
        · have h3 : rc = 3 := by omega
          subst h3
          exact ⟨[], ⟨3, false, none⟩, by simp [workerAttempts, hs], by simp,
            rfl, Or.inr ⟨rfl, rfl⟩⟩

/-- C2 counterexample: the worker publishes an `UploadResult` for EVERY
attempt (uploader.go lines 183-191 send before the retry decision), so a
task whose upload always fails publishes four results, not exactly one;
in particular its very first published result is a failed attempt that is
subsequently retried (backoff scheduled). -/
theorem C2_counterexample_result_per_attempt :
    publishedCount (fun _ => false) 0 = 4 ∧
    publishedCount (fun _ => false) 0 ≠ 1 ∧
    (workerAttempts (fun _ => false) 0).head? = some ⟨0, false, some 1⟩ := by
  refine ⟨?_, ?_, ?_⟩ <;> simp [publishedCount, workerAttempts]

/-- C2 amended: for every task the pipeline publishes one `UploadResult`
per attempt; the published sequence consists of zero or more failed,
re-queued attempts followed by exactly one terminal result, which is
either a success or the permanent failure whose retry count has reached
the ceiling 3. -/
theorem C2_amended_published_results (succeeds : Nat → Bool) (rc : Nat)
    (hrc : rc ≤ 3) :
    publishedCount succeeds rc = (workerAttempts succeeds rc).length ∧
    ∃ front last, workerAttempts succeeds rc = front ++ [last] ∧
      (∀ r ∈ front, r.success = false ∧ r.backoffSeconds.isSome) ∧
      last.backoffSeconds = none ∧
      (last.success = true ∨ (last.success = false ∧ last.retryCount = 3)) :=
  ⟨rfl, workerAttempts_decomp succeeds (3 - rc) rc (le_refl _) hrc⟩

/-- C2 amended witness: the decomposition applied to a task that fails
twice and then succeeds. -/
theorem C2_amended_published_results_witness :
    publishedCount (fun i => decide (2 ≤ i)) 0 =
      (workerAttempts (fun i => decide (2 ≤ i)) 0).length ∧
    ∃ front last, workerAttempts (fun i => decide (2 ≤ i)) 0 = front ++ [last] ∧
      (∀ r ∈ front, r.success = false ∧ r.backoffSeconds.isSome) ∧
      last.backoffSeconds = none ∧
      (last.success = true ∨ (last.success = false ∧ last.retryCount = 3)) :=
  C2_amended_published_results (fun i => decide (2 ≤ i)) 0 (by omega)

/-- Helper: the pattern loop matches exactly when some pattern compiles
and matches; failed compilations contribute nothing. -/
theorem shouldExcludeGo_iff (matchFn : String → String → Except String Bool)
    (path : String) (patterns : List String) :
    shouldExcludeGo matchFn path patterns = true ↔
      ∃ pat ∈ patterns, matchFn pat path = Except.ok true := by
  induction patterns with
  | nil => simp [shouldExcludeGo]
  | cons pat rest ih =>
      cases hm : matchFn pat path with
      | error e => simp [shouldExcludeGo, hm, ih]
      | ok matched =>
          cases matched with
          | true => simp [shouldExcludeGo, hm]
          | false =>
              simp only [shouldExcludeGo, hm, Bool.false_or, ih,
                List.exists_mem_cons_iff]
              constructor
              · exact Or.inr
              · rintro (h1 | h1)
                · exact absurd h1 (by simp [hm])
                · exact h1

/-- C8: the exclude matcher is total — it returns a boolean for every
path and pattern list — and it matches exactly when some pattern both
compiles and matches the path, so a pattern whose compilation fails never
causes a match by itself and never aborts the scan; moreover an invalid
pattern at the head of the list is skipped and the remaining patterns are
still evaluated. -/
theorem C8_shouldExclude_total (matchFn : String → String → Except String Bool)
    (path : String) (patterns : List String) :
    (ShouldExclude matchFn path patterns = true ↔
      ∃ pat ∈ patterns, matchFn pat path = Except.ok true) ∧
    (∀ pat rest e, matchFn pat path = Except.error e →
      ShouldExclude matchFn path (pat :: rest) =
        ShouldExclude matchFn path rest) := by
  constructor
  · unfold ShouldExclude
    rcases patterns with _ | ⟨p, ps⟩
    · simp
    · simp only [List.length_cons, Nat.succ_ne_zero, if_false]
      exact shouldExcludeGo_iff matchFn path (p :: ps)
  · intro pat rest e hm
    unfold ShouldExclude
    rcases rest with _ | ⟨q, qs⟩
    · simp [shouldExcludeGo, hm]
    · simp [shouldExcludeGo, hm]

/-- C8 witness: with the malformed glob "[" in front, the literal matcher
still finds the real pattern behind it, the malformed pattern is skipped,
and a list holding only the malformed pattern excludes nothing. -/
theorem C8_shouldExclude_total_witness :
    ShouldExclude matchLiteral "a.tmp" ["[", "a.tmp"] =
      ShouldExclude matchLiteral "a.tmp" ["a.tmp"] ∧
    ShouldExclude matchLiteral "a.tmp" ["[", "a.tmp"] = true := by
  constructor
  · exact (C8_shouldExclude_total matchLiteral "a.tmp" ["[", "a.tmp"]).2
      "[" ["a.tmp"] "syntax error in pattern" (by simp [matchLiteral])
  · exact (C8_shouldExclude_total matchLiteral "a.tmp" ["[", "a.tmp"]).1.mpr
      ⟨"a.tmp", by simp, by simp [matchLiteral]⟩

/-- C9: every folder entry built from the persisted configuration — in
`NewSyncManager` and for ids new to the registry in
`ReloadConfiguration` — carries `TwoWaySync = false` whatever the
configuration holds (the persisted `SyncFolder` shape has no two-way
field at all), so `syncFolder` never invokes the remote-download
reconciliation for such an entry. -/
theorem C9_config_folders_one_way (cfg : List (String × SyncFolderCfg))
    (old : List (String × FolderSync)) :
    (∀ e ∈ foldersFromConfig cfg,
      e.2.twoWaySync = false ∧ syncFolderDownloads e.2 = false) ∧
    (∀ e ∈ reloadFolders old cfg, lookupByID old e.1 = none →
      e.2.twoWaySync = false ∧ syncFolderDownloads e.2 = false) := by
  constructor
  · intro e he
    simp only [foldersFromConfig, List.mem_map] at he
    obtain ⟨p, _, hep⟩ := he
    subst hep
    exact ⟨rfl, rfl⟩
  · intro e he hnone
    simp only [reloadFolders, List.mem_map] at he
    obtain ⟨p, hp, hep⟩ := he
    cases hl : lookupByID old p.1 with
    | some ex =>
        rw [hl] at hep
        subst hep
        exact absurd hnone (by simp [hl])
    | none =>
        rw [hl] at hep
        subst hep
        exact ⟨rfl, rfl⟩

/-- C9 witness: a configuration-reload pass over an empty registry builds
the new folder entry with two-way sync off, so a full sync of it never
downloads. -/
theorem C9_config_folders_one_way_witness :
    (("f1", reloadNewFolder "f1" ⟨"/data", "f1", [], true⟩) ∈
      reloadFolders [] [("f1", ⟨"/data", "f1", [], true⟩)]) ∧
    (reloadNewFolder "f1" ⟨"/data", "f1", [], true⟩).twoWaySync = false ∧
    syncFolderDownloads (reloadNewFolder "f1" ⟨"/data", "f1", [], true⟩) =
      false := by
  have hmem : ("f1", reloadNewFolder "f1" ⟨"/data", "f1", [], true⟩) ∈
      reloadFolders [] [("f1", ⟨"/data", "f1", [], true⟩)] := by
    simp [reloadFolders, lookupByID]
  have h := (C9_config_folders_one_way [("f1", ⟨"/data", "f1", [], true⟩)] []).2
    ("f1", reloadNewFolder "f1" ⟨"/data", "f1", [], true⟩) hmem
    (by simp [lookupByID])
  exact ⟨hmem, h.1, h.2⟩

/-- C4: evaluation of the storage-key construction at a failing input.
For the folder `folder-1` rooted at `/data/photos` and the file
`/data/photos/album/pic1.jpg`, `QueueFile` attaches the key
`album/pic1.jpg` — the bare folder-relative path — and NOT the
namespace-prefixed `folder-1/album/pic1.jpg` that the remote-key
convention prescribes and that `downloadFromRemote` in the same package
assumes when it strips `folder.ID + "/"` from listed keys. -/
theorem C4_storage_key_drops_namespace :
    queueFileKey '/' "/data/photos" "/data/photos/album/pic1.jpg" =
      some "album/pic1.jpg" ∧
    queueFileKey '/' "/data/photos" "/data/photos/album/pic1.jpg" ≠
      some ("folder-1" ++ "/" ++ "album/pic1.jpg") ∧
    remoteRelPath "folder-1" ⟨"folder-1/album/pic1.jpg", 1, 5, "etag"⟩ =
      "album/pic1.jpg" := by
  refine ⟨?_, ?_, ?_⟩ <;> decide

/-- Helper: after a Go-map upsert the registry holds the inserted folder
under its id. -/
theorem lookupByID_setFolderEntry (t : List (String × FolderSync))
    (id : String) (f : FolderSync) :
    lookupByID (setFolderEntry t id f) id = some f := by
  unfold setFolderEntry
  by_cases hmem : (t.find? (fun p => p.1 = id)).isSome = true
  · rw [if_pos hmem]
    induction t with
    | nil => simp at hmem
    | cons a l ih =>
        by_cases ha : a.1 = id
        · simp [lookupByID, ha]
        · have hmem' : (l.find? (fun p => p.1 = id)).isSome = true := by
            rw [List.find?_cons_of_neg] at hmem
            · exact hmem
            · simp [ha]
          have := ih hmem'
          simp only [List.map_cons, if_neg ha]
          simp only [lookupByID] at this ⊢
          rw [List.find?_cons_of_neg _ (by simp [ha])]
          exact this
  · rw [if_neg hmem]
    induction t with
    | nil => simp [lookupByID]
    | cons a l ih =>
        have ha : ¬ a.1 = id := by
          intro h
          apply hmem
          rw [List.find?_cons_of_pos _ (by simp [h])]
          rfl
        have hmem' : ¬ (l.find? (fun p => p.1 = id)).isSome = true := by
          intro h
          exact hmem (by
            rw [List.find?_cons_of_neg _ (by simp [ha])]
            exact h)
        have := ih hmem'
        simp only [lookupByID] at this ⊢
        rw [List.cons_append, List.find?_cons_of_neg _ (by simp [ha])]
        exact this

/-- C6: `AddFolder` rejects a non-existent path, a path that is not a
directory, and a local path already registered under a different folder
id, and in each of these failure cases the folder registry (and the
configuration table) is exactly as it was before the call — validation
precedes every mutation. -/
theorem C6_addFolder_validation_leaves_registry (stat : String → Option Bool)
    (watcherUp : Bool) (watchErr saveErr : Option String) (newID : String)
    (st : ManagerState) (folder : FolderSync)
    (hval : stat folder.path = none ∨ stat folder.path = some false ∨
      ∃ q ∈ st.folders, q.2.path = folder.path ∧ q.1 ≠ folder.id) :
    (AddFolder stat watcherUp watchErr saveErr newID st folder).1.isSome = true ∧
    (AddFolder stat watcherUp watchErr saveErr newID st folder).2 = st := by
  unfold AddFolder
  by_cases hemp : folder.path = ""
  · simp [hemp]
  · rcases hval with h | h | h
    · simp [hemp, h]
    · simp [hemp, h]
    · obtain ⟨q, hq, hqpath, _⟩ := h
      have hdup : st.folders.any (fun p => p.2.path = folder.path) = true :=
        List.any_eq_true.mpr ⟨q, hq, by simp [hqpath]⟩
      cases hstat : stat folder.path with
      | none => simp [hemp, hstat]
      | some isDir =>
          cases isDir with
          | false => simp [hemp, hstat]
          | true => simp [hemp, hstat, hdup]

/-- C6 witness: adding a folder whose path does not stat fails and leaves
the empty registry empty. -/
theorem C6_addFolder_validation_witness :
    (AddFolder (fun _ => none) false none none "gid" ⟨[], []⟩
      ⟨"", "/missing", [], 0, false, true⟩).1.isSome = true ∧
    (AddFolder (fun _ => none) false none none "gid" ⟨[], []⟩
      ⟨"", "/missing", [], 0, false, true⟩).2 = ⟨[], []⟩ :=
  C6_addFolder_validation_leaves_registry (fun _ => none) false none none
    "gid" ⟨[], []⟩ ⟨"", "/missing", [], 0, false, true⟩ (Or.inl rfl)

/-- C10: `AddFolder` is not atomic past validation.  When the path and
duplicate checks pass but the watch registration or the configuration
save fails, the call returns an error while the new folder nevertheless
remains in the registry under its (possibly generated) id. -/
theorem C10_addFolder_not_atomic (stat : String → Option Bool)
    (watcherUp : Bool) (watchErr saveErr : Option String) (newID : String)
    (st : ManagerState) (folder : FolderSync)
    (hemp : ¬ folder.path = "")
    (hstat : stat folder.path = some true)
    (hdup : st.folders.any (fun p => p.2.path = folder.path) = false)
    (hfail : (folder.enabled = true ∧ watcherUp = true ∧ watchErr.isSome = true) ∨
      saveErr.isSome = true) :
    (AddFolder stat watcherUp watchErr saveErr newID st folder).1.isSome = true ∧
    lookupByID (AddFolder stat watcherUp watchErr saveErr newID st folder).2.folders
        (if folder.id = "" then newID else folder.id) =
      some { folder with id := if folder.id = "" then newID else folder.id } := by
  by_cases hw : folder.enabled = true ∧ watcherUp = true ∧ watchErr.isSome = true
  · obtain ⟨h1, h2, h3⟩ := hw
    simp only [AddFolder, if_neg hemp, hstat, hdup, h1, h2, h3, Bool.not_true,
      Bool.false_eq_true, if_false, and_self, if_true, Option.isSome_some,
      true_and]
    exact lookupByID_setFolderEntry _ _ _
  · rcases hfail with h | h
    · exact absurd h hw
    · cases hse : saveErr with
      | none =>
          rw [hse] at h
          simp at h
      | some e =>
          simp only [AddFolder, if_neg hemp, hstat, hdup, hse, Bool.not_true,
            Bool.false_eq_true, if_false]
          rw [if_neg hw]
          exact ⟨rfl, lookupByID_setFolderEntry _ _ _⟩

/-- C10 witness: a folder that validates but whose configuration save
fails is reported as an error yet sits in the registry afterwards. -/
theorem C10_addFolder_not_atomic_witness :
    (AddFolder (fun _ => some true) false none (some "disk full") "gid"
      ⟨[], []⟩ ⟨"f9", "/data/x", [], 0, false, false⟩).1.isSome = true ∧
    lookupByID (AddFolder (fun _ => some true) false none (some "disk full")
        "gid" ⟨[], []⟩ ⟨"f9", "/data/x", [], 0, false, false⟩).2.folders
        (if "f9" = "" then "gid" else "f9") =
      some { (⟨"f9", "/data/x", [], 0, false, false⟩ : FolderSync) with
              id := if "f9" = "" then "gid" else "f9" } :=
  C10_addFolder_not_atomic (fun _ => some true) false none
    (some "disk full") "gid" ⟨[], []⟩ ⟨"f9", "/data/x", [], 0, false, false⟩
    (by decide) rfl rfl (Or.inr rfl)

/-- Helper: one `Read` call keeps the per-second rate limiter's counter
between 0 and the quota, keeps the quota itself, and delivers exactly the
bytes it adds to the counter of the current window. -/
theorem throttledRead_step (t : ThrottledReader) (e l a : Nat)
    (hpos : 0 < t.bytesPerSec)
    (h0 : 0 ≤ t.bytesThisSec) (hle : t.bytesThisSec ≤ t.bytesPerSec) :
    (throttledRead t e l a).state.bytesPerSec = t.bytesPerSec ∧
    0 ≤ (throttledRead t e l a).state.bytesThisSec ∧
    (throttledRead t e l a).state.bytesThisSec ≤ t.bytesPerSec ∧
    (throttledRead t e l a).state.bytesThisSec =
      (if (throttledRead t e l a).resetWindow then 0 else t.bytesThisSec) +
        ((throttledRead t e l a).n : Int) := by
  unfold throttledRead oneSecondMs
  simp only [decide_eq_true_eq, Bool.and_eq_true, Bool.or_eq_true]
  split_ifs <;> simp_all <;> omega

/-- C7: along any sequence of reads, the total number of bytes a
throttled reader configured at `N = bytesPerSec > 0` delivers within one
tracked one-second window never exceeds `N`: every entry of the running
per-window byte totals is bounded by `N`.  (Each read is capped at the
remaining quota, and slack is possible only where a step resets the
window.) -/
theorem C7_throttled_window_bound (t0 : ThrottledReader)
    (inputs : List (Nat × Nat × Nat)) (hpos : 0 < t0.bytesPerSec)
    (h0 : 0 ≤ t0.bytesThisSec) (hle : t0.bytesThisSec ≤ t0.bytesPerSec) :
    ∀ x ∈ windowSums t0.bytesThisSec (runTrace t0 inputs),
      x ≤ t0.bytesPerSec := by
  induction inputs generalizing t0 with
  | nil =>
      intro x hx
      simp [runTrace, windowSums] at hx
  | cons i rest ih =>
      obtain ⟨e, l, a⟩ := i
      intro x hx
      obtain ⟨hbps, hnn, hub, heq⟩ := throttledRead_step t0 e l a hpos h0 hle
      simp only [runTrace, windowSums] at hx
      rw [← heq] at hx
      rcases List.mem_cons.mp hx with h1 | h1
      · exact h1 ▸ hub
      · have hub' : (throttledRead t0 e l a).state.bytesThisSec ≤
            (throttledRead t0 e l a).state.bytesPerSec := by
          rw [hbps]
          exact hub
        have := ih (throttledRead t0 e l a).state (by rw [hbps]; exact hpos)
          hnn hub' x h1
        rw [hbps] at this
        exact this

/-- C7 witness: a 5-bytes-per-second reader asked repeatedly for 10 bytes
delivers window totals of exactly 5, which the bound certifies. -/
theorem C7_throttled_window_bound_witness :
    (5 : Int) ∈ windowSums 0 (runTrace ⟨5, 0⟩ [(0, 10, 10), (700, 10, 10)]) ∧
    (5 : Int) ≤ 5 := by
  constructor
  · decide
  · exact C7_throttled_window_bound ⟨5, 0⟩ [(0, 10, 10), (700, 10, 10)]
      (by decide) (by decide) (by decide) 5 (by decide)

/-- Helper: after a download the local tree holds the written file. -/
theorem fileAt_writeLocal_self (fs : List LocalFile) (p c : String) (t : Nat) :
    fileAt (writeLocal fs p c t) p = some ⟨p, t, c⟩ := by
  simp [fileAt, writeLocal]

/-- Helper: a download leaves every other path of the local tree as it
was. -/
theorem fileAt_writeLocal_ne (fs : List LocalFile) (p c : String) (t : Nat)
    (q : String) (hne : q ≠ p) :
    fileAt (writeLocal fs p c t) q = fileAt fs q := by
  unfold fileAt writeLocal
  rw [List.find?_cons_of_neg _ (by simp [Ne.symm hne])]
  induction fs with
  | nil => rfl
  | cons a l ih =>
      by_cases hap : a.relPath = p
      · rw [List.filter_cons_of_neg (by simp [hap]),
          List.find?_cons_of_neg _ (by simp [hap, Ne.symm hne]), ih]
      · rw [List.filter_cons_of_pos (by simp [hap])]
        by_cases haq : a.relPath = q
        · rw [List.find?_cons_of_pos _ (by simp [haq]),
            List.find?_cons_of_pos _ (by simp [haq])]
        · rw [List.find?_cons_of_neg _ (by simp [haq]),
            List.find?_cons_of_neg _ (by simp [haq]), ih]

/-- Helper: the first component of the download fold is the list of keys
of exactly the remote files the decision selects, in listing order. -/
theorem downloadFold_keys (localMap : List (String × Nat)) (folderID : String)
    (remoteContent : String → String) :
    ∀ (remote : List RemoteFileInfo) (keys : List String) (fs : List LocalFile),
    (remote.foldl (downloadStep localMap folderID remoteContent) (keys, fs)).1 =
      keys ++ (remote.filter (shouldDownload localMap folderID)).map
        (fun rf => rf.key) := by
  intro remote
  induction remote with
  | nil =>
      intro keys fs
      simp
  | cons rf rest ih =>
      intro keys fs
      by_cases h : shouldDownload localMap folderID rf = true
      · rw [List.foldl_cons, List.filter_cons_of_pos h]
        simp only [downloadStep, if_pos h]
        rw [ih]
        simp
      · rw [List.foldl_cons, List.filter_cons_of_neg (by simp [h])]
        simp only [downloadStep, if_neg (by simp [h] : ¬ shouldDownload localMap folderID rf = true)]
        exact ih keys fs

/-- Helper: the download fold does not touch a path that none of the
remaining remote files maps to. -/
theorem downloadFold_fileAt_untouched (localMap : List (String × Nat))
    (folderID : String) (remoteContent : String → String) :
    ∀ (remote : List RemoteFileInfo) (keys : List String) (fs : List LocalFile)
      (p : String),
    (∀ rf ∈ remote, remoteRelPath folderID rf ≠ p) →
    fileAt (remote.foldl (downloadStep localMap folderID remoteContent)
      (keys, fs)).2 p = fileAt fs p := by
  intro remote
  induction remote with
  | nil =>
      intro keys fs p _
      rfl
  | cons rf rest ih =>
      intro keys fs p hp
      rw [List.foldl_cons]
      by_cases h : shouldDownload localMap folderID rf = true
      · simp only [downloadStep, if_pos h]
        rw [ih _ _ p (fun rf' h' => hp rf' (List.mem_cons_of_mem _ h'))]
        exact fileAt_writeLocal_ne _ _ _ _ p
          (Ne.symm (hp rf (List.mem_cons_self _ _)))
      · simp only [downloadStep, if_neg (by simp [h] :
          ¬ shouldDownload localMap folderID rf = true)]
        exact ih _ _ p (fun rf' h' => hp rf' (List.mem_cons_of_mem _ h'))

/-- Helper: the state of the local tree after the download fold, per
remote file, when the remote paths are pairwise distinct: a selected file
ends with the downloaded content and the remote modification time, an
unselected file's path is exactly as in the initial tree. -/
theorem downloadFold_fileAt (localMap : List (String × Nat))
    (folderID : String) (remoteContent : String → String) :
    ∀ (remote : List RemoteFileInfo) (keys : List String) (fs : List LocalFile),
    (remote.map (remoteRelPath folderID)).Nodup →
    ∀ rf ∈ remote,
      (shouldDownload localMap folderID rf = true →
        fileAt (remote.foldl (downloadStep localMap folderID remoteContent)
            (keys, fs)).2 (remoteRelPath folderID rf) =
          some ⟨remoteRelPath folderID rf, rf.lastModified,
            remoteContent rf.key⟩) ∧
      (shouldDownload localMap folderID rf = false →
        fileAt (remote.foldl (downloadStep localMap folderID remoteContent)
            (keys, fs)).2 (remoteRelPath folderID rf) =
          fileAt fs (remoteRelPath folderID rf)) := by
  intro remote
  induction remote with
  | nil =>
      intro keys fs _ rf hrf
      cases hrf
  | cons rf0 rest ih =>
      intro keys fs hnd rf hrf
      rw [List.map_cons] at hnd
      have hnd0 := List.nodup_cons.mp hnd
      rcases List.mem_cons.mp hrf with h0 | h0
      · subst h0
        have hpres : ∀ rf' ∈ rest, remoteRelPath folderID rf' ≠
            remoteRelPath folderID rf := by
          intro rf' h' heq
          exact hnd0.1 (heq ▸ List.mem_map_of_mem _ h')
        constructor
        · intro hd
          rw [List.foldl_cons]
          simp only [downloadStep, if_pos hd]
          rw [downloadFold_fileAt_untouched localMap folderID remoteContent
            rest _ _ _ hpres]
          exact fileAt_writeLocal_self _ _ _ _
        · intro hd
          rw [List.foldl_cons]
          simp only [downloadStep, if_neg (by simp [hd] :
            ¬ shouldDownload localMap folderID rf = true)]
          exact downloadFold_fileAt_untouched localMap folderID remoteContent
            rest _ _ _ hpres
      · have hne0 : remoteRelPath folderID rf ≠ remoteRelPath folderID rf0 := by
          intro heq
          exact hnd0.1 (heq ▸ List.mem_map_of_mem _ h0)
        rw [List.foldl_cons]
        by_cases hd0 : shouldDownload localMap folderID rf0 = true
        · simp only [downloadStep, if_pos hd0]
          have hrec := ih (keys ++ [rf0.key])
            (writeLocal fs (remoteRelPath folderID rf0)
              (remoteContent rf0.key) rf0.lastModified) hnd0.2 rf h0
          refine ⟨hrec.1, fun hd => ?_⟩
          rw [hrec.2 hd]
          exact fileAt_writeLocal_ne _ _ _ _ _ hne0
        · simp only [downloadStep, if_neg hd0]
          exact ih keys fs hnd0.2 rf h0

/-- Local tree for the C5 counterexample: a single file that the folder's
exclude patterns match, with a modification time later than its remote
counterpart. -/
def fs0ex : List LocalFile := [⟨"secret.txt", 10, "local"⟩]

/-- Remote listing for the C5 counterexample: the counterpart of the
excluded local file, strictly older than it. -/
def remoteEx : List RemoteFileInfo := [⟨"f1/secret.txt", 6, 5, "e1"⟩]

/-- C5 counterexample: the local scan of `downloadFromRemote` skips
excluded paths, so a local file that exists at the remote object's
folder-relative path — and is strictly newer than the remote object — is
treated as missing and the object is downloaded anyway, refuting the
claimed if-and-only-if download condition. -/
theorem C5_counterexample_excluded_local_file :
    fileAt fs0ex "secret.txt" = some ⟨"secret.txt", 10, "local"⟩ ∧
    remoteRelPath "f1" ⟨"f1/secret.txt", 6, 5, "e1"⟩ = "secret.txt" ∧
    ¬ (10 : Nat) < (⟨"f1/secret.txt", 6, 5, "e1"⟩ : RemoteFileInfo).lastModified ∧
    (downloadFromRemote matchLiteral "f1" ["secret.txt"] fs0ex remoteEx
      (fun _ => "remote")).1 = ["f1/secret.txt"] := by
  refine ⟨?_, ?_, ?_, ?_⟩ <;> decide

/-- C5 amended: in a two-way reconciliation pass a remote object is
downloaded if and only if the local scan — which skips paths matched by
the exclude patterns — records no file at the object's folder-relative
path, or the remote `lastModified` is strictly later than the recorded
local modification time; and, provided the remote objects map to pairwise
distinct relative paths, after the pass every downloaded object's local
file holds the remote content with its modification time set to the
remote value, while the local file of every undownloaded object is
exactly as before the pass. -/
theorem C5_amended_reconciliation
    (matchFn : String → String → Except String Bool) (folderID : String)
    (excl : List String) (fs0 : List LocalFile)
    (remote : List RemoteFileInfo) (remoteContent : String → String)
    (hnd : (remote.map (remoteRelPath folderID)).Nodup) :
    (downloadFromRemote matchFn folderID excl fs0 remote remoteContent).1 =
      (remote.filter
        (shouldDownload (localFilesMap matchFn excl fs0) folderID)).map
        (fun rf => rf.key) ∧
    ∀ rf ∈ remote,
      (shouldDownload (localFilesMap matchFn excl fs0) folderID rf = true →
        fileAt (downloadFromRemote matchFn folderID excl fs0 remote
            remoteContent).2 (remoteRelPath folderID rf) =
          some ⟨remoteRelPath folderID rf, rf.lastModified,
            remoteContent rf.key⟩) ∧
      (shouldDownload (localFilesMap matchFn excl fs0) folderID rf = false →
        fileAt (downloadFromRemote matchFn folderID excl fs0 remote
            remoteContent).2 (remoteRelPath folderID rf) =
          fileAt fs0 (remoteRelPath folderID rf)) := by
  constructor
  · exact downloadFold_keys (localFilesMap matchFn excl fs0) folderID
      remoteContent remote [] fs0
  · exact downloadFold_fileAt (localFilesMap matchFn excl fs0) folderID
      remoteContent remote [] fs0 hnd

/-- Local tree for the C5 witness: one stale file and one up-to-date
file. -/
def fsW : List LocalFile := [⟨"old.txt", 3, "stale"⟩, ⟨"same.txt", 5, "keep"⟩]

/-- Remote listing for the C5 witness: a newer counterpart of the stale
file and an older counterpart of the up-to-date file. -/
def remoteW : List RemoteFileInfo :=
  [⟨"f1/old.txt", 4, 9, "e1"⟩, ⟨"f1/same.txt", 2, 1, "e2"⟩]

/-- C5 amended witness: the stale file is downloaded and carries the
remote content and time afterwards; the up-to-date file is untouched. -/
theorem C5_amended_reconciliation_witness :
    (downloadFromRemote matchLiteral "f1" [] fsW remoteW
      (fun _ => "fresh")).1 = ["f1/old.txt"] ∧
    fileAt (downloadFromRemote matchLiteral "f1" [] fsW remoteW
      (fun _ => "fresh")).2 "old.txt" = some ⟨"old.txt", 9, "fresh"⟩ ∧
    fileAt (downloadFromRemote matchLiteral "f1" [] fsW remoteW
      (fun _ => "fresh")).2 "same.txt" = fileAt fsW "same.txt" := by
  have h := C5_amended_reconciliation matchLiteral "f1" [] fsW remoteW
    (fun _ => "fresh") (by decide)
  refine ⟨h.1.trans (by decide), ?_, ?_⟩
  · have h2 := (h.2 ⟨"f1/old.txt", 4, 9, "e1"⟩ (by decide)).1 (by decide)
    rw [show remoteRelPath "f1" ⟨"f1/old.txt", 4, 9, "e1"⟩ = "old.txt" from by
      decide] at h2
    exact h2
  · have h2 := (h.2 ⟨"f1/same.txt", 2, 1, "e2"⟩ (by decide)).2 (by decide)
    rw [show remoteRelPath "f1" ⟨"f1/same.txt", 2, 1, "e2"⟩ = "same.txt" from by
      decide] at h2
    exact h2

end SyncSpec
